import Mathlib

/-
Verification of the path-resolution, hierarchy-mutation, caching and stream-bridge
layer of the afero-gdrive driver (gdrive.go, file.go, api_wrapper.go, cache/cache.go,
iohelper/, fileinfo.go, errors.go), as a shallow embedding.

Go strings are modelled as lists of characters (`Str`).  The remote Google Drive
store is an external collaborator; it is modelled from the specification (§6:
lookup-children-by-parent-and-name filtered on non-trashed entries, create, update,
delete) as a deterministic in-memory store.  Remote transport failures are not
modelled: every claim under study is about the driver's logic on the results of
remote calls, and the transport-error branches of the driver merely wrap and
return the error.  Concurrency (the write pipe and its completion channel) is
modelled by explicit state: the single-slot completion channel of a write handle
is a value `Option (Option GErr)` holding the result that the background upload
task will deliver; `close` returning that value models "block until the
completion signal arrives, then return it".
-/

namespace Gdrive

/-- Go strings, modelled as lists of characters. -/
abbrev Str := List Char

/-- From fileinfo.go: isPathSeperator reports whether a rune is a path separator. -/
def isPathSeperator (r : Char) : Bool :=
  r = '/' || r = '\\'

/-- From fileinfo.go: sanitizeName replaces every path separator and every
single-quote character of a name by the filler character, leaving the rest. -/
def sanitizeName (s : Str) : Str :=
  s.map (fun r => if isPathSeperator r || r = '\'' then '-' else r)

/-- Go's path.Join applied to a list of path segments, for segments that are
nonempty, free of separators and free of dot segments -- which is exactly what
strings.FieldsFunc(path, isPathSeperator) produces for the ordinary paths this
development quantifies over (path.Clean is then the identity). -/
def pathJoin : List Str → Str
  | [] => []
  | [p] => p
  | p :: ps => p ++ '/' :: pathJoin ps

/-- Go's path.Join applied to two components (a parent path, possibly empty,
and a sanitized leaf name), under the same cleanliness conditions. -/
def pathJoin2 (a b : Str) : Str :=
  if a = [] then b else if b = [] then a else a ++ '/' :: b

/-- Go's strings.FieldsFunc(s, isPathSeperator): the maximal runs of
non-separator characters, with no empty fields. -/
def splitPath (s : Str) : List Str :=
  (s.splitOnP (fun c => isPathSeperator c)).filter (fun p => p ≠ [])

/-- The opaque identifier the modelled remote store assigns to the n-th created
entry.  Identifiers are opaque to the driver; this encoding makes every freshly
created identifier one character longer than its creation counter, which keeps
fresh identifiers distinct from every identifier already present in a
well-formed store. -/
def freshId (n : Nat) : Str :=
  'i' :: List.replicate n 'd'

/-- The MIME type Google Drive uses for folders (gdrive.go). -/
def mimeTypeFolder : Str :=
  "application/vnd.google-apps.folder".toList

/-- The MIME type the driver uses when creating regular files (gdrive.go). -/
def mimeTypeFile : Str :=
  "application/octet-stream".toList

/-- The attributes of a remote drive.File entry used by the driver. -/
structure DriveFile where
  id : Str
  name : Str
  mimeType : Str
  parents : List Str
  trashed : Bool
deriving DecidableEq

/-- FileInfo (fileinfo.go): a remote entry together with the locally computed
parent path snapshot. -/
structure FileInfo where
  file : DriveFile
  parentPath : Str
deriving DecidableEq

/-- FileInfo.IsDir (fileinfo.go): the entry kind equals the folder MIME type. -/
def FileInfo.IsDir (i : FileInfo) : Bool :=
  i.file.mimeType = mimeTypeFolder

/-- FileInfo.Path (fileinfo.go): path.Join(parentPath, sanitizeName(name)). -/
def FileInfo.Path (i : FileInfo) : Str :=
  pathJoin2 i.parentPath (sanitizeName i.file.name)

/-- Stream-level error causes (errors returned by the underlying transport
streams); io.EOF is the distinguished end-of-file value. -/
inductive StreamErr where
  | eof
  | other (code : Nat)
deriving DecidableEq

/-- The error kinds of errors.go, plus a constructor for raw remote errors
(values of type error produced by the remote API and passed around unwrapped,
such as the value delivered on a write handle's completion channel). -/
inductive GErr where
  | fileNotExist (path : Str)
  | fileHasMultipleEntries (path : Str)
  | fileIsNotDirectory (path : Str)
  | fileIsDirectory (path : Str)
  | noFileInformation (path : Str)
  | driveAPICall (code : Nat)
  | driveStream (cause : StreamErr)
  | ioErr (e : StreamErr)
  | remoteErr (code : Nat)
  | forbiddenOnRoot
  | emptyPath
  | notSupported
  | notImplemented
  | readOnly
  | writeOnly
  | readAndWriteNotSupported
  | unknownBufferType
  | internalNil
deriving DecidableEq

/-- IsNotExist (errors.go): the error is a FileNotExistError. -/
def IsNotExist : GErr → Bool
  | .fileNotExist _ => true
  | _ => false

/-- The wrapping file.go applies to an error coming out of a read or write
stream: io.EOF is passed through unchanged, anything else is wrapped in a
DriveStreamError carrying the cause. -/
def wrapStreamErr : Option StreamErr → Option GErr
  | none => none
  | some s => if s = .eof then some (.ioErr s) else some (.driveStream s)

/-- Whether a non-trashed child of the given folder carries the given
(already sanitized) name: the filter of the remote query
`'folderID' in parents and name='X' and trashed = false`. -/
def matchesB (folderID nameFilter : Str) (f : DriveFile) : Bool :=
  decide (folderID ∈ f.parents ∧ f.name = nameFilter ∧ f.trashed = false)

/-- Modelled from the spec: the remote store (external collaborator, §6).  The
repository only consumes it through the drive/v3 client; it is modelled as an
in-memory list of entries plus a fresh-identifier counter. -/
structure Remote where
  files : List DriveFile
  nextId : Nat
deriving DecidableEq

/-- Modelled from the spec (§6 lookupChildren): all non-trashed entries whose
parents contain the folder and whose name equals the filter. -/
def Remote.lookupChildren (s : Remote) (folderID nameFilter : Str) : List DriveFile :=
  s.files.filter (matchesB folderID nameFilter)

/-- Modelled from the spec (§6 createEntry): appends a fresh entry under the
given parent and bumps the identifier counter. -/
def Remote.createEntry (s : Remote) (parentId name mime : Str) : DriveFile × Remote :=
  let f : DriveFile :=
    { id := freshId s.nextId, name := name, mimeType := mime
      parents := [parentId], trashed := false }
  (f, { files := s.files ++ [f], nextId := s.nextId + 1 })

/-- Modelled from the spec (§6 updateEntry with Trashed: true): soft delete. -/
def Remote.setTrashed (s : Remote) (id : Str) : Remote :=
  { s with files := s.files.map (fun f => if f.id = id then { f with trashed := true } else f) }

/-- Modelled from the spec (§6 deleteEntry): removes the entry itself; the
remote side's cascading removal of descendants is not needed by any claim. -/
def Remote.deleteEntry (s : Remote) (id : Str) : Remote :=
  { s with files := s.files.filter (fun f => decide (f.id ≠ id)) }

/-- Modelled from the spec (§6 updateEntry): rename and reparent in one call. -/
def Remote.updateEntry (s : Remote) (id newName addParent : Str) (removeParents : List Str) : Remote :=
  { s with files := s.files.map (fun f =>
      if f.id = id then
        { f with name := newName
                 parents := (f.parents.filter (fun p => decide (p ∉ removeParents))) ++ [addParent] }
      else f) }

/-- The literal Drive query string built by APIWrapper._getFileByFolderAndName:
fmt.Sprintf with the folder identifier and the sanitized file name spliced into
single-quote delimited literals. -/
def buildQuery (folderID fileName : Str) : Str :=
  '\'' :: folderID ++ '\'' :: " in parents and name=".toList ++ '\'' :: sanitizeName fileName
    ++ '\'' :: " and trashed = false".toList

/-- Cache (cache/cache.go): a key/value map from strings to cached lookup
results, modelled as an association list with map semantics. -/
structure Cache where
  items : List (Str × List DriveFile)
deriving DecidableEq

/-- Cache.Set: stores a value under a key, replacing any previous binding. -/
def Cache.set (c : Cache) (k : Str) (v : List DriveFile) : Cache :=
  { items := (k, v) :: c.items.filter (fun kv => decide (kv.1 ≠ k)) }

/-- Cache.Get: the value bound to the key, if any. -/
def Cache.get (c : Cache) (k : Str) : Option (List DriveFile) :=
  (c.items.find? (fun kv => decide (kv.1 = k))).map Prod.snd

/-- Cache.CleanupByPrefix (cache/cache.go): deletes every binding whose key has
the given string prefix (strings.HasPrefix). -/
def Cache.cleanupPrefixed (c : Cache) (p : Str) : Cache :=
  { items := c.items.filter (fun kv => !(p.isPrefixOf kv.1)) }

/-- Cache.CleanupEverything (cache/cache.go): resets the cache. -/
def Cache.cleanupEverything : Cache :=
  { items := [] }

/-- One remote API call, as recorded for observability: the call-counter facet
of APIWrapper, refined to keep the calls' arguments so that claims about issued
calls and requested field sets can be stated. -/
inductive RemoteCall where
  | listCall (folderID fileName fields : Str)
  | createCall (parentId name mime : Str)
  | updateCall (id : Str)
  | deleteCall (id : Str)
deriving DecidableEq

/-- Whether a recorded call mutates remote state (create/update/delete). -/
def RemoteCall.isMutation : RemoteCall → Bool
  | .listCall _ _ _ => false
  | _ => true

/-- The combined state threaded through the driver: the remote store, the
APIWrapper's cache and UseCache flag, and the trace of issued remote calls. -/
structure Env where
  store : Remote
  cache : Cache
  useCache : Bool
  log : List RemoteCall
deriving DecidableEq

/-- The default field set APIWrapper.getFileByFolderAndName supplies when the
caller requested no fields. -/
def defaultQueryFields : Str :=
  "files(id,mimeType,parents)".toList

/-- The field set (gdrive.go listFields) used for full lookups:
files(...) over the fileInfoFields. -/
def listFieldsStr : Str :=
  "files(createdTime,id,mimeType,modifiedTime,name,size)".toList

/-- The cache key fmt.Sprintf("%s-getFileByFolderAndName-%s-%s", folderID,
fileName, queryFields). -/
def cacheKey (folderID fileName queryFields : Str) : Str :=
  folderID ++ '-' :: "getFileByFolderAndName-".toList ++ fileName ++ '-' :: queryFields

/-- APIWrapper._getFileByFolderAndName: issues the Files.List call with the
query buildQuery folderID fileName (whose semantics the modelled remote
implements as lookupChildren on the sanitized name) and the given fields. -/
def APIWrapper.underlyingGetFileByFolderAndName (env : Env) (folderID fileName fields : Str) :
    List DriveFile × Env :=
  (env.store.lookupChildren folderID (sanitizeName fileName),
   { env with log := env.log ++ [RemoteCall.listCall folderID fileName fields] })

/-- APIWrapper.getFileByFolderAndName: read-through cache in front of the
child-by-folder-and-name lookup; an empty combined field set is replaced by the
default field set; a successful miss is cached when UseCache is set. -/
def APIWrapper.getFileByFolderAndName (env : Env) (folderID fileName queryFields : Str) :
    List DriveFile × Env :=
  let qf := if queryFields = [] then defaultQueryFields else queryFields
  let key := cacheKey folderID fileName qf
  match env.cache.get key with
  | some v => (v, env)
  | none =>
      let (fileList, env1) := APIWrapper.underlyingGetFileByFolderAndName env folderID fileName qf
      let env2 := if env1.useCache then { env1 with cache := env1.cache.set key fileList } else env1
      (fileList, env2)

/-- APIWrapper.createFile: creates the (sanitized-name) entry under the folder,
then evicts every cache binding whose key has the prefix folderID ++ "-". -/
def APIWrapper.createFile (env : Env) (folderID fileName mime : Str) :
    DriveFile × Env :=
  let (f, store1) := env.store.createEntry folderID (sanitizeName fileName) mime
  let env1 := { env with store := store1, log := env.log ++ [RemoteCall.createCall folderID fileName mime] }
  (f, { env1 with cache := env1.cache.cleanupPrefixed (folderID ++ ['-']) })

/-- APIWrapper.deleteFile: trashes or permanently deletes the entry, then
evicts the whole cache for a folder, or, for a regular file, every binding
whose key has any of the entry's parent identifiers as a (raw, separator-less)
string prefix. -/
def APIWrapper.deleteFile (env : Env) (f : DriveFile) (trash : Bool) : Env :=
  let env1 :=
    if trash then
      { env with store := env.store.setTrashed f.id, log := env.log ++ [RemoteCall.updateCall f.id] }
    else
      { env with store := env.store.deleteEntry f.id, log := env.log ++ [RemoteCall.deleteCall f.id] }
  if f.mimeType = mimeTypeFolder then
    { env1 with cache := Cache.cleanupEverything }
  else
    { env1 with cache := f.parents.foldl (fun c p => c.cleanupPrefixed p) env1.cache }

/-- The driver configuration and root pointer (GDriver, gdrive.go).
WriteBufferType is a string-typed configuration value in the source; its
recognized values are the four constants below. -/
structure GDriver where
  rootNode : FileInfo
  trashForDelete : Bool
  writeBufferType : Str
  writeBufferSize : Nat
deriving DecidableEq

/-- WriteBufferNone: the empty buffer-type string. -/
def writeBufferNone : Str := []

/-- WriteBufferSimple. -/
def writeBufferSimple : Str := "simple".toList

/-- WriteBufferAsync. -/
def writeBufferAsync : Str := "async".toList

/-- WriteBufferChan. -/
def writeBufferChan : Str := "chan".toList

/-- The loop body of getFileByParts (gdrive.go): walks the remaining segments,
looking each up as a child of the current identifier; a non-final segment
requests the empty field set, the final one the caller's combined field set.
`done` is the list of segments already resolved, so that the error paths can
report path.Join of the segments up to and including the offending one.
Returns the final resolved drive.File on success. -/
def getFileByPartsGo (env : Env) (lastId requestedFields : Str) (done : List Str) :
    List Str → Except GErr DriveFile × Env
  | [] => (.error .internalNil, env)
  | p :: rest =>
      let queryFields := if rest.isEmpty then requestedFields else ([] : Str)
      let r := APIWrapper.getFileByFolderAndName env lastId p queryFields
      match r.1 with
      | [] => (.error (.fileNotExist (pathJoin (done ++ [p]))), r.2)
      | [f] =>
          if rest.isEmpty then (.ok f, r.2)
          else getFileByPartsGo r.2 f.id requestedFields (done ++ [p]) rest
      | _ :: _ :: _ => (.error (.fileHasMultipleEntries (pathJoin (done ++ [p]))), r.2)

/-- getFileByParts (gdrive.go): resolves a pre-split path relative to a root
node.  The Boolean of the result records whether the returned FileInfo is the
root-node pointer itself (Go compares pointers; the function returns the very
rootNode pointer exactly when the path has no segments). -/
def getFileByParts (env : Env) (rootNode : FileInfo) (pathParts : List Str)
    (fields : Str) : Except GErr (Bool × FileInfo) × Env :=
  match pathParts with
  | [] => (.ok (true, rootNode), env)
  | _ =>
      match getFileByPartsGo env rootNode.file.id fields [] pathParts with
      | (.ok f, env1) =>
          (.ok (false, { file := f, parentPath := pathJoin pathParts.dropLast }), env1)
      | (.error e, env1) => (.error e, env1)

/-- getFile / getFileOnRootNode (gdrive.go): split the path on separators and
resolve it from the driver's current root. -/
def getFile (d : GDriver) (env : Env) (path : Str) (fields : Str) :
    Except GErr (Bool × FileInfo) × Env :=
  getFileByParts env d.rootNode (splitPath path) fields

/-- The loop body of makeDirectoryByParts (gdrive.go): at each segment, looks
the (sanitized) name up under the current parent; descends into a single
match; on zero matches, fails if the current parent is not a directory, and
otherwise creates a folder entry and descends into it; on several matches
fails with the multiple-entries error.  Error paths report path.Join of the
already-resolved segments (for the not-a-directory case) or of the segments up
to and including the offending one (for the multiple-entries case). -/
def makeDirectoryByPartsGo (env : Env) (parentNode : FileInfo) (done : List Str) :
    List Str → Except GErr FileInfo × Env
  | [] => (.ok parentNode, env)
  | p :: rest =>
      let r := APIWrapper.getFileByFolderAndName env parentNode.file.id p listFieldsStr
      match r.1 with
      | [] =>
          if !parentNode.IsDir then
            (.error (.fileIsNotDirectory (pathJoin done)), r.2)
          else
            let c := APIWrapper.createFile r.2 parentNode.file.id p mimeTypeFolder
            makeDirectoryByPartsGo c.2 { file := c.1, parentPath := pathJoin done }
              (done ++ [p]) rest
      | [f] =>
          makeDirectoryByPartsGo r.2 { file := f, parentPath := pathJoin done }
            (done ++ [p]) rest
      | _ :: _ :: _ => (.error (.fileHasMultipleEntries (pathJoin (done ++ [p]))), r.2)

/-- makeDirectoryByParts (gdrive.go): the directory-materializing walk from the
driver's root. -/
def makeDirectoryByParts (d : GDriver) (env : Env) (pathParts : List Str) :
    Except GErr FileInfo × Env :=
  makeDirectoryByPartsGo env d.rootNode [] pathParts

/-- MkdirAll (gdrive.go): split the path and materialize every segment. -/
def MkdirAll (d : GDriver) (env : Env) (path : Str) : Option GErr × Env :=
  match makeDirectoryByParts d env (splitPath path) with
  | (.ok _, env1) => (none, env1)
  | (.error e, env1) => (some e, env1)

/-- GDriver.deleteFile (gdrive.go): delete or trash through the API wrapper,
according to the driver's TrashForDelete setting. -/
def GDriver.deleteFile (d : GDriver) (env : Env) (fi : FileInfo) : Option GErr × Env :=
  (none, APIWrapper.deleteFile env fi.file d.trashForDelete)

/-- RemoveAll (gdrive.go): resolve the target; refuse the root; delete. -/
def RemoveAll (d : GDriver) (env : Env) (path : Str) : Option GErr × Env :=
  match getFile d env path [] with
  | (.error e, env1) => (some e, env1)
  | (.ok (isRoot, file), env1) =>
      if isRoot then (some .forbiddenOnRoot, env1)
      else d.deleteFile env1 file

/-- Remove (gdrive.go): delegates to RemoveAll. -/
def Remove (d : GDriver) (env : Env) (path : Str) : Option GErr × Env :=
  RemoveAll d env path

/-- DeleteDirectory (gdrive.go): resolve; require a directory; refuse the
root; delete. -/
def DeleteDirectory (d : GDriver) (env : Env) (path : Str) : Option GErr × Env :=
  match getFile d env path [] with
  | (.error e, env1) => (some e, env1)
  | (.ok (isRoot, file), env1) =>
      if !file.IsDir then (some (.fileIsNotDirectory file.Path), env1)
      else if isRoot then (some .forbiddenOnRoot, env1)
      else d.deleteFile env1 file

/-- Rename (gdrive.go): split the new path (empty is refused); resolve the
source (the root is refused); materialize the new parent directories; issue
one update call renaming to the sanitized new leaf name, adding the new parent
and removing all prior parents.  The update call goes to the remote service
directly, not through the caching wrapper. -/
def Rename (d : GDriver) (env : Env) (oldPath newPath : Str) : Option GErr × Env :=
  let pathParts := splitPath newPath
  if pathParts.length ≤ 0 then (some .emptyPath, env)
  else
    match getFile d env oldPath "files(id,parents)".toList with
    | (.error e, env1) => (some e, env1)
    | (.ok (isRoot, file), env1) =>
        if isRoot then (some .forbiddenOnRoot, env1)
        else
          let stepParent : Except GErr FileInfo × Env :=
            if 1 < pathParts.length then
              match makeDirectoryByPartsGo env1 d.rootNode [] pathParts.dropLast with
              | (.ok dir, env2) =>
                  if !dir.IsDir then (.error (.fileIsNotDirectory dir.Path), env2)
                  else (.ok dir, env2)
              | (.error e, env2) => (.error e, env2)
            else (.ok d.rootNode, env1)
          match stepParent with
          | (.error e, env2) => (some e, env2)
          | (.ok parentNode, env2) =>
              (none,
               { env2 with
                 store := env2.store.updateEntry file.file.id
                   (sanitizeName (pathParts.getLast!)) parentNode.file.id file.file.parents
                 log := env2.log ++ [RemoteCall.updateCall file.file.id] })

/-- createFile (gdrive.go): refuse an empty path; resolve the target
(tolerating not-exist); refuse the root pointer; materialize the parent
directories; create the final segment as a regular file under them. -/
def createFile (d : GDriver) (env : Env) (filePath : Str) : Except GErr FileInfo × Env :=
  let pathParts := splitPath filePath
  if pathParts.length ≤ 0 then (.error .emptyPath, env)
  else
    let step1 : Except GErr (Option (Bool × FileInfo)) × Env :=
      match getFileByParts env d.rootNode pathParts listFieldsStr with
      | (.ok r, env1) => (.ok (some r), env1)
      | (.error e, env1) =>
          if !(IsNotExist e) then (.error e, env1) else (.ok none, env1)
    match step1 with
    | (.error e, env1) => (.error e, env1)
    | (.ok existent, env1) =>
        if existent.elim false (fun r => r.1) then (.error .forbiddenOnRoot, env1)
        else
          let stepParent : Except GErr FileInfo × Env :=
            if 1 < pathParts.length then
              match makeDirectoryByPartsGo env1 d.rootNode [] pathParts.dropLast with
              | (.ok dir, env2) =>
                  if !dir.IsDir then
                    (.error (.fileIsNotDirectory (pathJoin pathParts.dropLast)), env2)
                  else (.ok dir, env2)
              | (.error e, env2) => (.error e, env2)
            else (.ok d.rootNode, env1)
          match stepParent with
          | (.error e, env2) => (.error e, env2)
          | (.ok parentNode, env2) =>
              let c := APIWrapper.createFile env2 parentNode.file.id
                (pathParts.getLast!) mimeTypeFile
              (.ok { file := c.1, parentPath := pathJoin pathParts.dropLast }, c.2)

/-- The write-closer values a write handle can hold: the raw pipe writer or
one of the three iohelper buffering decorators around an inner write-closer. -/
inductive WC where
  | pipe
  | buffered (inner : WC) (size : Nat)
  | asyncChan (inner : WC) (size : Nat)
  | asyncBuf (inner : WC) (size : Nat)
deriving DecidableEq

/-- wrapWriteCloser (gdrive.go): the buffering decorator selected by the
driver's configuration -- the destination itself for a zero buffer size or the
none type, one of the three iohelper decorators for the recognized types, and
the unknown-buffer-type error otherwise. -/
def wrapWriteCloser (d : GDriver) (dst : WC) : Except GErr WC :=
  if d.writeBufferSize = 0 then .ok dst
  else if d.writeBufferType = writeBufferNone then .ok dst
  else if d.writeBufferType = writeBufferSimple then .ok (.buffered dst d.writeBufferSize)
  else if d.writeBufferType = writeBufferChan then .ok (.asyncChan dst d.writeBufferSize)
  else if d.writeBufferType = writeBufferAsync then .ok (.asyncBuf dst d.writeBufferSize)
  else .error .unknownBufferType

/-- getFileWriter (gdrive.go): opens a pipe whose write end is handed to the
caller while a background task drains the read end into the remote
Files.Update call; the single completion result of that upload (given here as
the model input `uploadResult`, since the remote transfer is external) is
delivered once on the error channel. -/
def getFileWriter (uploadResult : Option GErr) : WC × Option (Option GErr) :=
  (WC.pipe, some uploadResult)

/-- A read stream (the response body of the ranged download), carrying the
result its Close() will report. -/
structure RS where
  closeRes : Option StreamErr
deriving DecidableEq

/-- File (file.go): the managed file handle.  streamWriteEnd models the
completion channel: none is a nil channel, some c a channel that will deliver
exactly c. -/
structure FileHandle where
  fileInfo : FileInfo
  path : Str
  streamRead : Option RS := none
  streamWrite : Option WC := none
  streamWriteEnd : Option (Option GErr) := none
  streamOffset : Int := 0
deriving DecidableEq

/-- openFileWrite (gdrive.go), translated faithfully: the source checks the
error of wrapWriteCloser with inverted polarity
(`if writerBuffer, err := d.wrapWriteCloser(writer); err != nil { writer = writerBuffer }`),
so on success the decorated writer is discarded and the raw pipe writer kept,
and on failure the handle's writer becomes the nil writerBuffer while the open
still succeeds. -/
def openFileWrite (d : GDriver) (file : FileInfo) (path : Str) (uploadResult : Option GErr) :
    Except GErr FileHandle :=
  let w := getFileWriter uploadResult
  let writer : Option WC :=
    match wrapWriteCloser d w.1 with
    | .ok _ => some w.1
    | .error _ => none
  .ok { fileInfo := file, path := path, streamWrite := writer, streamWriteEnd := w.2 }

/-- The stream-level side effects File.Close may perform. -/
inductive StreamOp where
  | closeWrite
  | closeRead
deriving DecidableEq

/-- File.Read (file.go): refused on a write handle; otherwise the underlying
stream's result (its byte count `n` and error `e` are model inputs, the stream
being external) advances the offset by n, io.EOF passes through and any other
stream error is wrapped.  The result is none when the source would dereference
a nil stream. -/
def File.read (f : FileHandle) (n : Nat) (e : Option StreamErr) :
    Option ((Nat × Option GErr) × FileHandle) :=
  if f.streamWrite.isSome then some ((0, some .writeOnly), f)
  else
    match f.streamRead with
    | none => none
    | some _ => some ((n, wrapStreamErr e), { f with streamOffset := f.streamOffset + (n : Int) })

/-- File.Write (file.go): refused on a read handle; otherwise symmetric to
File.Read over the write stream. -/
def File.write (f : FileHandle) (n : Nat) (e : Option StreamErr) :
    Option ((Nat × Option GErr) × FileHandle) :=
  if f.streamRead.isSome then some ((0, some .readOnly), f)
  else
    match f.streamWrite with
    | none => none
    | some _ => some ((n, wrapStreamErr e), { f with streamOffset := f.streamOffset + (n : Int) })

/-- File.Close (file.go): on a write handle, closes the feeding end of the
pipe (its own close error is only logged), receives the single completion
value from the channel, clears the write stream and channel references and
returns that value; on a read handle, closes and clears the read stream,
passing io.EOF through and wrapping other close errors; otherwise returns nil
having done nothing.  The result is none when the source would block forever
receiving from a nil channel. -/
def File.close (f : FileHandle) : Option (Option GErr × FileHandle × List StreamOp) :=
  match f.streamWrite with
  | some _ =>
      match f.streamWriteEnd with
      | none => none
      | some closeErr =>
          some (closeErr, { f with streamWrite := none, streamWriteEnd := none },
                [StreamOp.closeWrite])
  | none =>
      match f.streamRead with
      | some r =>
          some (wrapStreamErr r.closeRes, { f with streamRead := none }, [StreamOp.closeRead])
      | none => some (none, f, [])

/-- The shape every handle produced by the driver has: at most one of the two
streams is held, and the completion channel is held exactly when the write
stream is (openFileRead sets only streamRead, openFileWrite sets streamWrite
together with streamWriteEnd, directory handles hold neither). -/
def handleWF (f : FileHandle) : Prop :=
  (f.streamRead = none ∨ f.streamWrite = none)
  ∧ (f.streamWrite = none → f.streamWriteEnd = none)
  ∧ (f.streamWrite ≠ none → f.streamWriteEnd ≠ none)

/-- The folder entries a run of makeDirectoryByParts creates for the given
segments, starting with the fresh-identifier counter n0 under the given
parent: each segment becomes a folder whose single parent is the previous
level. -/
def mkChainFiles (n0 : Nat) (parentId : Str) : List Str → List DriveFile
  | [] => []
  | p :: rest =>
      { id := freshId n0, name := sanitizeName p, mimeType := mimeTypeFolder,
        parents := [parentId], trashed := false }
        :: mkChainFiles (n0 + 1) (freshId n0) rest

/-- The FileInfo a run of makeDirectoryByParts returns: the node of the last
segment of the chain (or the starting parent for an empty segment list). -/
def chainResult (parent : FileInfo) (done : List Str) (n0 : Nat) : List Str → FileInfo
  | [] => parent
  | p :: rest =>
      chainResult
        { file := { id := freshId n0, name := sanitizeName p, mimeType := mimeTypeFolder,
                    parents := [parent.file.id], trashed := false },
          parentPath := pathJoin done }
        (done ++ [p]) (n0 + 1) rest

/-- The parent identifier of level i of a created chain: the root for the
first segment, the (i-1)-th created folder for the later ones. -/
def chainParentId (rootId : Str) (n0 : Nat) : Nat → Str
  | 0 => rootId
  | i + 1 => freshId (n0 + i)

/-- A regular-file entry used as a concrete instance in witnesses. -/
def fileEntry0 : DriveFile :=
  { id := "f0".toList, name := "n".toList, mimeType := mimeTypeFile,
    parents := ["r".toList], trashed := false }

/-- A concrete non-directory FileInfo. -/
def fi0 : FileInfo :=
  { file := fileEntry0, parentPath := [] }

/-- A concrete root directory entry. -/
def rootEntry0 : DriveFile :=
  { id := "r".toList, name := "root".toList, mimeType := mimeTypeFolder,
    parents := [], trashed := false }

/-- A concrete root FileInfo. -/
def rootFi0 : FileInfo :=
  { file := rootEntry0, parentPath := [] }

/-- A driver over the concrete root, with no write buffering configured. -/
def d0 : GDriver :=
  { rootNode := rootFi0, trashForDelete := false,
    writeBufferType := writeBufferNone, writeBufferSize := 0 }

/-- A driver configured with the simple buffering strategy and a buffer size. -/
def dSimple : GDriver :=
  { d0 with writeBufferType := writeBufferSimple, writeBufferSize := 8 }

/-- A driver configured with an unrecognized buffering strategy string. -/
def dBogus : GDriver :=
  { d0 with writeBufferType := "bogus".toList, writeBufferSize := 8 }

/-- An environment with an empty store and an empty cache. -/
def env0 : Env :=
  { store := { files := [], nextId := 1 }, cache := { items := [] },
    useCache := true, log := [] }

/-- An environment whose store holds two non-trashed entries named a under the
concrete root: a duplicated name in one parent. -/
def envDup : Env :=
  { env0 with store :=
      { files :=
          [ { id := "x1".toList, name := "a".toList, mimeType := mimeTypeFile,
              parents := ["r".toList], trashed := false },
            { id := "x2".toList, name := "a".toList, mimeType := mimeTypeFile,
              parents := ["r".toList], trashed := false } ],
        nextId := 1 } }

/-- An environment whose cache holds one binding, keyed by a folder whose
identifier AB extends the identifier A. -/
def envC6 : Env :=
  { env0 with cache := { items := [(cacheKey "AB".toList "n".toList "f".toList, [])] } }

/-- A regular file whose single parent is the folder A. -/
def fileC6 : DriveFile :=
  { id := "x".toList, name := "n".toList, mimeType := mimeTypeFile,
    parents := ["A".toList], trashed := false }

/-- A folder entry with parent A, for the directory-deletion witness. -/
def folderC6 : DriveFile :=
  { id := "y".toList, name := "m".toList, mimeType := mimeTypeFolder,
    parents := ["A".toList], trashed := false }

/-- An environment whose store holds a folder a under the concrete root and a
file b inside that folder, for the field-set witness. -/
def envC7 : Env :=
  { env0 with store :=
      { files :=
          [ { id := "da".toList, name := "a".toList, mimeType := mimeTypeFolder,
              parents := ["r".toList], trashed := false },
            { id := "db".toList, name := "b".toList, mimeType := mimeTypeFile,
              parents := ["da".toList], trashed := false } ],
        nextId := 1 } }

/-- A concrete read handle. -/
def hRead0 : FileHandle :=
  { fileInfo := fi0, path := [], streamRead := some { closeRes := none } }

/-- A concrete write handle whose upload will succeed. -/
def hWrite0 : FileHandle :=
  { fileInfo := fi0, path := [], streamWrite := some WC.pipe, streamWriteEnd := some none }

theorem pathJoin_append (xs ys : List Str) (hx : xs ≠ []) (hy : ys ≠ []) :
    pathJoin (xs ++ ys) = pathJoin xs ++ '/' :: pathJoin ys := by
  induction xs with
  | nil => exact absurd rfl hx
  | cons x xs ih =>
      cases xs with
      | nil =>
          cases ys with
          | nil => exact absurd rfl hy
          | cons y ys => simp [pathJoin]
      | cons x2 xs2 =>
          have h2 := ih (by simp)
          calc pathJoin ((x :: x2 :: xs2) ++ ys)
              = x ++ '/' :: pathJoin ((x2 :: xs2) ++ ys) := by simp [pathJoin]
            _ = x ++ '/' :: (pathJoin (x2 :: xs2) ++ '/' :: pathJoin ys) := by rw [h2]
            _ = pathJoin (x :: x2 :: xs2) ++ '/' :: pathJoin ys := by simp [pathJoin]

theorem pathJoin_ne_longer (done : List Str) (p : Str) (rest : List Str) (h : rest ≠ []) :
    pathJoin (done ++ [p]) ≠ pathJoin (done ++ p :: rest) := by
  have h2 : done ++ p :: rest = (done ++ [p]) ++ rest := by simp
  rw [h2, pathJoin_append (done ++ [p]) rest (by simp) h]
  intro hEq
  have hl := congrArg List.length hEq
  simp at hl

theorem freshId_length (n : Nat) : (freshId n).length = n + 1 := by
  simp [freshId]

theorem freshId_dashfree (n : Nat) : ∀ ch ∈ freshId n, ch ≠ '-' := by
  intro ch hch
  simp only [freshId, List.mem_cons, List.mem_replicate] at hch
  rcases hch with h | ⟨-, h⟩ <;> (subst h; decide)

theorem matchesB_false_of_len (pid x : Str) (f : DriveFile)
    (h : ∀ q ∈ f.parents, q.length ≠ pid.length) : matchesB pid x f = false := by
  simp only [matchesB, decide_eq_false_iff_not]
  rintro ⟨hm, -⟩
  exact h pid hm rfl

theorem cacheGet_empty (k : Str) : Cache.get { items := [] } k = none := rfl

theorem cacheGet_none_of_ne (c : Cache) (k : Str) (h : ∀ kv ∈ c.items, kv.1 ≠ k) :
    c.get k = none := by
  unfold Cache.get
  rw [List.find?_eq_none.mpr]
  · rfl
  · intro kv hkv
    simpa using h kv hkv

theorem isPrefixOf_key (pid T : Str) : (pid ++ ['-']).isPrefixOf (pid ++ '-' :: T) = true := by
  rw [List.isPrefixOf_iff_prefix]
  have h2 : pid ++ '-' :: T = (pid ++ ['-']) ++ T := by simp
  rw [h2]
  exact List.prefix_append _ _

theorem cacheKey_shape (pid fn qf : Str) :
    cacheKey pid fn qf
      = pid ++ '-' :: ("getFileByFolderAndName-".toList ++ fn ++ '-' :: qf) := by
  simp [cacheKey]

theorem key_ne_short (a t pid T : Str) (h : a.length < pid.length)
    (hp : ∀ ch ∈ pid, ch ≠ '-') : a ++ '-' :: t ≠ pid ++ '-' :: T := by
  intro hEq
  have e1 : (a ++ '-' :: t)[a.length]? = some '-' := by
    rw [List.getElem?_append_right (le_refl _)]
    simp
  have e2 : (pid ++ '-' :: T)[a.length]? = some (pid.get ⟨a.length, h⟩) := by
    rw [List.getElem?_append, if_pos h]
    simp [List.getElem?_eq_getElem h, List.get_eq_getElem]
  rw [hEq, e2] at e1
  exact hp _ (List.get_mem pid a.length h) (Option.some_injective _ e1)

/-- Claim C8: for every FileInfo node, Path() equals join(parentPath,
sanitize(name)); sanitize keeps the length and replaces exactly the
path-separator characters and single quotes by the filler, leaving every
other character unchanged; and the remote lookup query string is built by
splicing the sanitized segment into the single-quote delimited name literal
(the same sanitize function). -/
theorem C8_path_sanitize_query (fi : FileInfo) (s folderID fileName : Str) (i : Nat) :
    fi.Path = pathJoin2 fi.parentPath (sanitizeName fi.file.name)
    ∧ (sanitizeName s).length = s.length
    ∧ (sanitizeName s)[i]? =
        (s[i]?).map (fun r => if isPathSeperator r || r = '\'' then '-' else r)
    ∧ buildQuery folderID fileName =
        '\'' :: folderID ++ '\'' :: " in parents and name=".toList
          ++ '\'' :: sanitizeName fileName ++ '\'' :: " and trashed = false".toList := by
  refine ⟨rfl, by simp [sanitizeName], ?_, rfl⟩
  simp [sanitizeName, List.getElem?_map]

/-- Claim C5 (code bug): wrapWriteCloser computes the decorator the
configuration selects (a buffered writer for the simple strategy, the
unknown-buffer-type error for an unrecognized one), but openFileWrite checks
its error with inverted polarity: with the simple strategy configured the
returned handle's write stream is the raw pipe writer and the decorator is
discarded, and with an unrecognized strategy the open still succeeds and the
handle's write stream is nil instead of the open failing. -/
theorem C5_openFileWrite_ignores_buffering :
    wrapWriteCloser dSimple WC.pipe = .ok (WC.buffered WC.pipe 8)
    ∧ (∃ h : FileHandle,
        openFileWrite dSimple fi0 [] none = .ok h ∧ h.streamWrite = some WC.pipe)
    ∧ wrapWriteCloser dBogus WC.pipe = .error .unknownBufferType
    ∧ (∃ h : FileHandle,
        openFileWrite dBogus fi0 [] none = .ok h ∧ h.streamWrite = none) := by
  refine ⟨rfl, ⟨_, rfl, rfl⟩, rfl, ⟨_, rfl, rfl⟩⟩

/-- Claim C9: File.Close is idempotent at the handle level: on any handle of
the shape the driver produces, the first Close clears the read-stream,
write-stream and completion-channel references, and a second Close on the
resulting handle returns nil and performs no stream operation. -/
theorem C9_close_idempotent (f : FileHandle) (hwf : handleWF f) :
    ∃ e f1 ops,
      File.close f = some (e, f1, ops)
      ∧ f1.streamRead = none ∧ f1.streamWrite = none ∧ f1.streamWriteEnd = none
      ∧ File.close f1 = some (none, f1, []) := by
  obtain ⟨h1, h2, h3⟩ := hwf
  cases hw : f.streamWrite with
  | some w =>
      cases he : f.streamWriteEnd with
      | none =>
          exact absurd he (h3 (by simp [hw]))
      | some c =>
          have hr : f.streamRead = none := by
            rcases h1 with h | h
            · exact h
            · rw [h] at hw; cases hw
          refine ⟨c, { f with streamWrite := none, streamWriteEnd := none },
            [StreamOp.closeWrite], ?_, ?_, rfl, rfl, ?_⟩
          · simp [File.close, hw, he]
          · simpa using hr
          · simp [File.close, hr]
  | none =>
      have he : f.streamWriteEnd = none := h2 hw
      cases hr : f.streamRead with
      | some r =>
          refine ⟨wrapStreamErr r.closeRes, { f with streamRead := none },
            [StreamOp.closeRead], ?_, rfl, ?_, ?_, ?_⟩
          · simp [File.close, hw, hr]
          · simpa using hw
          · simpa using he
          · simp [File.close, hw]
      | none =>
          exact ⟨none, f, [], by simp [File.close, hw, hr], hr, hw, he,
            by simp [File.close, hw, hr]⟩

/-- Witness for C9 at a concrete read handle. -/
theorem C9_witness :
    handleWF hRead0
    ∧ ∃ e f1 ops,
        File.close hRead0 = some (e, f1, ops)
        ∧ f1.streamRead = none ∧ f1.streamWrite = none ∧ f1.streamWriteEnd = none
        ∧ File.close f1 = some (none, f1, []) :=
  ⟨⟨Or.inr rfl, fun _ => rfl, fun h => absurd rfl h⟩,
   C9_close_idempotent _ ⟨Or.inr rfl, fun _ => rfl, fun h => absurd rfl h⟩⟩

/-- Claim C10: File.Read passes io.EOF through unwrapped while wrapping every
other stream error in the drive-stream kind carrying the cause; File.Write
wraps the same way; and both advance the handle's stream offset by exactly
the number of bytes the underlying stream reports transferred. -/
theorem C10_stream_wrapping (f : FileHandle) (n : Nat) (e : Option StreamErr) (s : StreamErr) :
    (f.streamWrite = none → f.streamRead ≠ none →
        File.read f n e =
          some ((n, wrapStreamErr e), { f with streamOffset := f.streamOffset + (n : Int) }))
    ∧ (f.streamRead = none → f.streamWrite ≠ none →
        File.write f n e =
          some ((n, wrapStreamErr e), { f with streamOffset := f.streamOffset + (n : Int) }))
    ∧ wrapStreamErr (some .eof) = some (.ioErr .eof)
    ∧ (s ≠ .eof → wrapStreamErr (some s) = some (.driveStream s))
    ∧ wrapStreamErr none = none := by
  refine ⟨?_, ?_, rfl, ?_, rfl⟩
  · intro hw hr
    cases hrr : f.streamRead with
    | none => exact absurd hrr hr
    | some r => simp [File.read, hw, hrr]
  · intro hr hw
    cases hww : f.streamWrite with
    | none => exact absurd hww hw
    | some w => simp [File.write, hr, hww]
  · intro hs
    simp [wrapStreamErr, hs]

/-- Witness for C10 at concrete read and write handles with a non-EOF error. -/
theorem C10_witness :
    File.read hRead0 3 (some (.other 9))
      = some ((3, some (.driveStream (.other 9))), { hRead0 with streamOffset := 3 })
    ∧ File.write hWrite0 5 (some .eof)
      = some ((5, some (.ioErr .eof)), { hWrite0 with streamOffset := 5 }) := by
  constructor
  · have h := (C10_stream_wrapping hRead0 3 (some (.other 9)) (.other 9)).1 rfl (by
      simp [hRead0])
    simpa [hRead0] using h
  · have h := (C10_stream_wrapping hWrite0 5 (some .eof) (.other 0)).2.1 rfl (by
      simp [hWrite0])
    simpa [hWrite0] using h

theorem getGo_cons (env : Env) (lastId rq : Str) (done : List Str) (p : Str) (rest : List Str) :
    getFileByPartsGo env lastId rq done (p :: rest)
      = (let r := APIWrapper.getFileByFolderAndName env lastId p
            (if rest.isEmpty then rq else ([] : Str))
         match r.1 with
         | [] => (.error (.fileNotExist (pathJoin (done ++ [p]))), r.2)
         | [f] =>
             if rest.isEmpty then (.ok f, r.2)
             else getFileByPartsGo r.2 f.id rq (done ++ [p]) rest
         | _ :: _ :: _ => (.error (.fileHasMultipleEntries (pathJoin (done ++ [p]))), r.2)) :=
  rfl

theorem mkGo_cons (env : Env) (parentNode : FileInfo) (done : List Str) (p : Str)
    (rest : List Str) :
    makeDirectoryByPartsGo env parentNode done (p :: rest)
      = (let r := APIWrapper.getFileByFolderAndName env parentNode.file.id p listFieldsStr
         match r.1 with
         | [] =>
             if !parentNode.IsDir then
               (.error (.fileIsNotDirectory (pathJoin done)), r.2)
             else
               let c := APIWrapper.createFile r.2 parentNode.file.id p mimeTypeFolder
               makeDirectoryByPartsGo c.2 { file := c.1, parentPath := pathJoin done }
                 (done ++ [p]) rest
         | [f] =>
             makeDirectoryByPartsGo r.2 { file := f, parentPath := pathJoin done }
               (done ++ [p]) rest
         | _ :: _ :: _ => (.error (.fileHasMultipleEntries (pathJoin (done ++ [p]))), r.2)) :=
  rfl

theorem wrapper_miss (env : Env) (fid fn qfs qf : Str)
    (hqf : (if qfs = [] then defaultQueryFields else qfs) = qf)
    (hm : env.cache.get (cacheKey fid fn qf) = none) :
    APIWrapper.getFileByFolderAndName env fid fn qfs
      = (env.store.lookupChildren fid (sanitizeName fn),
         { env with
           log := env.log ++ [RemoteCall.listCall fid fn qf]
           cache :=
             if env.useCache then
               env.cache.set (cacheKey fid fn qf)
                 (env.store.lookupChildren fid (sanitizeName fn))
             else env.cache }) := by
  subst hqf
  simp only [APIWrapper.getFileByFolderAndName]
  rw [hm]
  simp only [APIWrapper.underlyingGetFileByFolderAndName]
  cases hu : env.useCache <;> simp [hu]

theorem wrapper_hit (env : Env) (fid fn qfs qf : Str) (v : List DriveFile)
    (hqf : (if qfs = [] then defaultQueryFields else qfs) = qf)
    (hm : env.cache.get (cacheKey fid fn qf) = some v) :
    APIWrapper.getFileByFolderAndName env fid fn qfs = (v, env) := by
  subst hqf
  simp only [APIWrapper.getFileByFolderAndName]
  rw [hm]

/-- Claim C1: during path resolution, a segment whose child lookup yields zero
matching non-trashed entries fails with the does-not-exist error carrying the
joined path of the segments up to and including that one; a segment with more
than one match fails with the multiple-entries error carrying the same path
(never silently picking one match); and when further segments remain, that
reported path differs from the join of the full requested path. -/
theorem C1_resolution_errors (env : Env) (lastId requestedFields : Str) (done : List Str)
    (p : Str) (rest : List Str) :
    ((APIWrapper.getFileByFolderAndName env lastId p
        (if rest.isEmpty then requestedFields else ([] : Str))).1 = [] →
      getFileByPartsGo env lastId requestedFields done (p :: rest)
        = (.error (.fileNotExist (pathJoin (done ++ [p]))),
           (APIWrapper.getFileByFolderAndName env lastId p
             (if rest.isEmpty then requestedFields else ([] : Str))).2))
    ∧ (1 < (APIWrapper.getFileByFolderAndName env lastId p
        (if rest.isEmpty then requestedFields else ([] : Str))).1.length →
      getFileByPartsGo env lastId requestedFields done (p :: rest)
        = (.error (.fileHasMultipleEntries (pathJoin (done ++ [p]))),
           (APIWrapper.getFileByFolderAndName env lastId p
             (if rest.isEmpty then requestedFields else ([] : Str))).2))
    ∧ (rest ≠ [] → pathJoin (done ++ [p]) ≠ pathJoin (done ++ p :: rest)) := by
  refine ⟨?_, ?_, pathJoin_ne_longer done p rest⟩
  · intro h0
    rw [getGo_cons]
    simp only []
    rw [h0]
  · intro h1
    rw [getGo_cons]
    simp only []
    rcases hE : (APIWrapper.getFileByFolderAndName env lastId p
        (if rest.isEmpty then requestedFields else ([] : Str))).1 with - | ⟨a, - | ⟨b, l⟩⟩
    · rw [hE] at h1
      simp at h1
    · rw [hE] at h1
      simp at h1
    · rfl

/-- Witness for C1: a missing segment in the empty store reports not-exist
with the partial path, and a duplicated name reports multiple entries. -/
theorem C1_witness :
    getFileByPartsGo env0 "r".toList listFieldsStr [] ["z".toList]
      = (.error (.fileNotExist (pathJoin ([] ++ ["z".toList]))),
         (APIWrapper.getFileByFolderAndName env0 "r".toList "z".toList
           (if ([] : List Str).isEmpty then listFieldsStr else ([] : Str))).2)
    ∧ getFileByPartsGo envDup "r".toList listFieldsStr [] ["a".toList]
      = (.error (.fileHasMultipleEntries (pathJoin ([] ++ ["a".toList]))),
         (APIWrapper.getFileByFolderAndName envDup "r".toList "a".toList
           (if ([] : List Str).isEmpty then listFieldsStr else ([] : Str))).2) :=
  ⟨(C1_resolution_errors env0 "r".toList listFieldsStr [] "z".toList []).1 (by decide),
   (C1_resolution_errors envDup "r".toList listFieldsStr [] "a".toList []).2.1 (by decide)⟩

/-- Claim C3 (corrected): Remove, RemoveAll and DeleteDirectory on a path that
resolves to the current root, and Rename whose source resolves to the root,
fail with the forbidden-on-root error with the environment (remote store,
cache and call trace) left completely unchanged; file creation targeting the
root, however, fails with the empty-path error (also leaving the environment
unchanged), because a path resolving to the root has no segments and
createFile's empty-path check precedes its root check. -/
theorem C3_root_protection (d : GDriver) (env : Env) (p np : Str)
    (hp : splitPath p = []) (hroot : d.rootNode.IsDir = true) (hnp : splitPath np ≠ []) :
    RemoveAll d env p = (some .forbiddenOnRoot, env)
    ∧ Remove d env p = (some .forbiddenOnRoot, env)
    ∧ DeleteDirectory d env p = (some .forbiddenOnRoot, env)
    ∧ Rename d env p np = (some .forbiddenOnRoot, env)
    ∧ createFile d env p = (.error .emptyPath, env) := by
  have hg : ∀ flds, getFile d env p flds = (.ok (true, d.rootNode), env) := by
    intro flds
    simp [getFile, hp, getFileByParts]
  have hlen : ¬ ((splitPath np).length ≤ 0) := by
    simpa [List.length_eq_zero] using hnp
  refine ⟨?_, ?_, ?_, ?_, ?_⟩
  · simp [RemoveAll, hg]
  · simp [Remove, RemoveAll, hg]
  · simp [DeleteDirectory, hg, hroot]
  · simp [Rename, hlen, hg]
  · simp [createFile, hp]

/-- Counterexample for C3 as stated: file creation targeting the root (the
only way a creation target resolves to the root is a path with no segments)
fails with the empty-path error, not the forbidden-on-root error. -/
theorem C3_counterexample :
    createFile d0 env0 ['/'] = (.error .emptyPath, env0)
    ∧ GErr.emptyPath ≠ GErr.forbiddenOnRoot :=
  ⟨rfl, by decide⟩

/-- Witness for C3 at the concrete driver, root path and target path. -/
theorem C3_witness :
    RemoveAll d0 env0 ['/'] = (some .forbiddenOnRoot, env0)
    ∧ DeleteDirectory d0 env0 ['/'] = (some .forbiddenOnRoot, env0)
    ∧ Rename d0 env0 ['/'] ['a'] = (some .forbiddenOnRoot, env0) := by
  have h := C3_root_protection d0 env0 ['/'] ['a'] (by decide) (by decide) (by decide)
  exact ⟨h.1, h.2.2.1, h.2.2.2.1⟩

theorem foldl_cleanupPrefixed (ps : List Str) (c : Cache) :
    (ps.foldl (fun c p => c.cleanupPrefixed p) c).items
      = c.items.filter (fun kv => ps.all (fun q => !(q.isPrefixOf kv.1))) := by
  induction ps generalizing c with
  | nil => simp
  | cons p ps ih =>
      rw [List.foldl_cons, ih]
      show (Cache.cleanupPrefixed c p).items.filter _ = _
      unfold Cache.cleanupPrefixed
      rw [List.filter_filter]
      congr 1
      funext kv
      simp only [List.all_cons]
      exact Bool.and_comm _ _

/-- Claim C6 (corrected): after a successful create under parent folder P,
exactly the cache entries whose key starts with P's identifier followed by
the dash separator are evicted; after a successful delete or trash of a
directory the whole cache is emptied; after a successful delete or trash of a
regular file, exactly the cache entries whose key starts with one of the
file's parent identifiers as a raw string prefix (with no separator, so
entries of folders whose identifier merely extends a parent identifier are
evicted too) are removed, all other entries remaining unchanged. -/
theorem C6_cache_eviction (env : Env) (folderID fileName mime : Str)
    (f : DriveFile) (tr : Bool) :
    (APIWrapper.createFile env folderID fileName mime).2.cache.items
        = env.cache.items.filter (fun kv => !((folderID ++ ['-']).isPrefixOf kv.1))
    ∧ (f.mimeType = mimeTypeFolder → (APIWrapper.deleteFile env f tr).cache.items = [])
    ∧ (f.mimeType ≠ mimeTypeFolder →
        (APIWrapper.deleteFile env f tr).cache.items
          = env.cache.items.filter
              (fun kv => f.parents.all (fun q => !(q.isPrefixOf kv.1)))) := by
  refine ⟨rfl, ?_, ?_⟩
  · intro hf
    cases tr <;> simp [APIWrapper.deleteFile, hf, Cache.cleanupEverything]
  · intro hf
    cases tr <;> simp [APIWrapper.deleteFile, hf, foldl_cleanupPrefixed]

/-- Counterexample for C6 as stated: deleting a regular file whose parent is
the folder A evicts the cache entry keyed by the folder AB (whose identifier
merely extends A), an entry outside the scope of the claim's eviction rules --
its key is not even an entry of folder A, as witnessed by the create-eviction
prefix of A not matching it. -/
theorem C6_counterexample :
    ("A".toList ++ ['-']).isPrefixOf (cacheKey "AB".toList "n".toList "f".toList) = false
    ∧ envC6.cache.items.length = 1
    ∧ (APIWrapper.deleteFile envC6 fileC6 true).cache.items = [] :=
  ⟨by decide, by decide, by decide⟩

/-- Witness for C6 at a concrete folder deletion and a concrete file
deletion. -/
theorem C6_witness :
    (APIWrapper.deleteFile envC6 folderC6 false).cache.items = []
    ∧ (APIWrapper.deleteFile envC6 fileC6 true).cache.items
        = envC6.cache.items.filter
            (fun kv => fileC6.parents.all (fun q => !(q.isPrefixOf kv.1))) :=
  ⟨(C6_cache_eviction envC6 "x".toList "y".toList "z".toList folderC6 false).2.1 (by decide),
   (C6_cache_eviction envC6 "x".toList "y".toList "z".toList fileC6 true).2.2 (by decide)⟩

theorem getFileByParts_snd (env : Env) (root : FileInfo) (p : Str) (rest : List Str)
    (fields : Str) :
    (getFileByParts env root (p :: rest) fields).2
      = (getFileByPartsGo env root.file.id fields [] (p :: rest)).2 := by
  unfold getFileByParts
  rcases getFileByPartsGo env root.file.id fields [] (p :: rest) with ⟨res, envF⟩
  cases res <;> rfl

/-- Claim C7 (corrected): while resolving a multi-segment path, every
non-final segment's child lookup passes the empty field set, which the API
wrapper replaces by the default field set files(id,mimeType,parents) -- the
identifier, MIME type and parents, not the identifier alone -- and the final
segment's lookup passes the caller's requested field set (itself defaulted
the same way only when empty).  Stated here for the general two-segment
resolution shape from any starting state with the two lookups missing the
cache. -/
theorem C7_field_sets (env : Env) (root : FileInfo) (p q rq : Str) (f : DriveFile)
    (hrq : rq ≠ [])
    (hm1 : env.cache.get (cacheKey root.file.id p defaultQueryFields) = none)
    (hf : env.store.lookupChildren root.file.id (sanitizeName p) = [f])
    (hm2 : (APIWrapper.getFileByFolderAndName env root.file.id p ([] : Str)).2.cache.get
        (cacheKey f.id q rq) = none) :
    (getFileByParts env root [p, q] rq).2.log
      = env.log ++ [RemoteCall.listCall root.file.id p defaultQueryFields,
                    RemoteCall.listCall f.id q rq]
    ∧ defaultQueryFields = "files(id,mimeType,parents)".toList
    ∧ defaultQueryFields ≠ "files(id)".toList := by
  have h1 : APIWrapper.getFileByFolderAndName env root.file.id p ([] : Str)
      = (env.store.lookupChildren root.file.id (sanitizeName p),
         { env with
           log := env.log ++ [RemoteCall.listCall root.file.id p defaultQueryFields]
           cache :=
             if env.useCache then
               env.cache.set (cacheKey root.file.id p defaultQueryFields)
                 (env.store.lookupChildren root.file.id (sanitizeName p))
             else env.cache }) :=
    wrapper_miss env root.file.id p ([] : Str) defaultQueryFields (by simp) hm1
  rw [h1] at hm2
  set env1 : Env :=
    { env with
      log := env.log ++ [RemoteCall.listCall root.file.id p defaultQueryFields]
      cache :=
        if env.useCache then
          env.cache.set (cacheKey root.file.id p defaultQueryFields)
            (env.store.lookupChildren root.file.id (sanitizeName p))
        else env.cache } with henv1
  have h2 : APIWrapper.getFileByFolderAndName env1 f.id q rq
      = (env1.store.lookupChildren f.id (sanitizeName q),
         { env1 with
           log := env1.log ++ [RemoteCall.listCall f.id q rq]
           cache :=
             if env1.useCache then
               env1.cache.set (cacheKey f.id q rq)
                 (env1.store.lookupChildren f.id (sanitizeName q))
             else env1.cache }) :=
    wrapper_miss env1 f.id q rq rq (by simp [hrq]) hm2
  refine ⟨?_, rfl, by decide⟩
  rw [getFileByParts_snd env root p [q] rq]
  rw [getGo_cons]
  have e1 : (if ([q] : List Str).isEmpty then rq else ([] : Str)) = ([] : Str) := by simp
  rw [e1, h1]
  simp only [hf]
  rw [getGo_cons]
  have e2 : (if ([] : List Str).isEmpty then rq else ([] : Str)) = rq := by simp
  rw [e2, h2]
  rcases env1.store.lookupChildren f.id (sanitizeName q) with - | ⟨a, - | ⟨b, l⟩⟩ <;>
    simp [henv1, List.append_assoc]

/-- Counterexample for C7 as stated: resolving the two-segment path a/b in a
concrete store issues the intermediate lookup with the default field set
files(id,mimeType,parents) -- which requests the MIME type and parents in
addition to the identifier, hence not only the identifier field. -/
theorem C7_counterexample :
    (getFileByParts envC7 rootFi0 ["a".toList, "b".toList] listFieldsStr).2.log
      = [RemoteCall.listCall "r".toList "a".toList defaultQueryFields,
         RemoteCall.listCall "da".toList "b".toList listFieldsStr]
    ∧ defaultQueryFields = "files(id,mimeType,parents)".toList
    ∧ defaultQueryFields ≠ "files(id)".toList
    ∧ defaultQueryFields ≠ "id".toList :=
  ⟨by decide, rfl, by decide, by decide⟩

/-- Witness for C7 at the concrete two-level store. -/
theorem C7_witness :
    (getFileByParts envC7 rootFi0 ["a".toList, "b".toList] listFieldsStr).2.log
      = envC7.log ++ [RemoteCall.listCall rootFi0.file.id "a".toList defaultQueryFields,
                      RemoteCall.listCall "da".toList "b".toList listFieldsStr] := by
  have h := C7_field_sets envC7 rootFi0 "a".toList "b".toList listFieldsStr
      { id := "da".toList, name := "a".toList, mimeType := mimeTypeFolder,
        parents := ["r".toList], trashed := false }
      (by decide) (by decide) (by decide) (by decide)
  exact h.1

/-- Claim C2: a handle opened for write holds the completion channel of its
background upload; Close() closes the feeding end of the pipe, receives the
single completion value from the channel, and returns it -- so a remote-side
upload failure is surfaced from Close(); Write() on the handle only reports
the pipe stream's own result and never involves the upload's completion
value. -/
theorem C2_close_surfaces_upload (d : GDriver) (fi : FileInfo) (p : Str)
    (up : Option GErr) (h : FileHandle)
    (hopen : openFileWrite d fi p up = .ok h) (hw : h.streamWrite ≠ none) :
    h.streamWriteEnd = some up
    ∧ File.close h
        = some (up, { h with streamWrite := none, streamWriteEnd := none },
                [StreamOp.closeWrite])
    ∧ (∀ n e, File.write h n e =
        some ((n, wrapStreamErr e), { h with streamOffset := h.streamOffset + (n : Int) })) := by
  have hend : h.streamWriteEnd = some up := by
    cases hopen
    rfl
  have hr : h.streamRead = none := by
    cases hopen
    rfl
  cases hww : h.streamWrite with
  | none => exact absurd hww hw
  | some w =>
      refine ⟨hend, by simp [File.close, hww, hend], ?_⟩
      intro n e
      simp [File.write, hr, hww]

/-- Witness for C2: with the unbuffered driver and a concrete failing upload
result, Close returns exactly the upload error and Write reports only the
stream's result. -/
theorem C2_witness :
    ∃ h : FileHandle,
      openFileWrite d0 fi0 [] (some (.remoteErr 7)) = .ok h
      ∧ h.streamWriteEnd = some (some (.remoteErr 7))
      ∧ File.close h
          = some (some (.remoteErr 7),
              { h with streamWrite := none, streamWriteEnd := none }, [StreamOp.closeWrite])
      ∧ File.write h 4 none
          = some ((4, none), { h with streamOffset := h.streamOffset + (4 : Int) }) := by
  refine ⟨_, rfl, ?_⟩
  have h := C2_close_surfaces_upload d0 fi0 [] (some (.remoteErr 7)) _ rfl (by decide)
  exact ⟨h.1, h.2.1, h.2.2 4 none⟩

theorem chain_filter_none_short (parts : List Str) :
    ∀ (n0 : Nat) (pid0 pid x : Str), pid ≠ pid0 → pid.length ≤ n0 →
    (mkChainFiles n0 pid0 parts).filter (matchesB pid x) = [] := by
  induction parts with
  | nil => intros; rfl
  | cons p rest ih =>
      intro n0 pid0 pid x hne hlen
      have hhead : matchesB pid x
          { id := freshId n0, name := sanitizeName p, mimeType := mimeTypeFolder,
            parents := [pid0], trashed := false } = false := by
        simp only [matchesB, decide_eq_false_iff_not]
        rintro ⟨hm, -⟩
        simp only [List.mem_singleton] at hm
        exact hne hm
      simp only [mkChainFiles, List.filter_cons, hhead, if_neg]
      simp only [Bool.false_eq_true, if_false]
      exact ih (n0 + 1) (freshId n0) pid x
        (fun h => by rw [h, freshId_length] at hlen; omega)
        (hlen.trans (Nat.le_succ n0))

theorem chain_filter_head (n0 : Nat) (pid p : Str) (rest : List Str)
    (hlen : pid.length ≤ n0) :
    (mkChainFiles n0 pid (p :: rest)).filter (matchesB pid (sanitizeName p))
      = [{ id := freshId n0, name := sanitizeName p, mimeType := mimeTypeFolder,
           parents := [pid], trashed := false }] := by
  have hhead : matchesB pid (sanitizeName p)
      { id := freshId n0, name := sanitizeName p, mimeType := mimeTypeFolder,
        parents := [pid], trashed := false } = true := by
    simp [matchesB]
  simp only [mkChainFiles, List.filter_cons, hhead, if_pos]
  rw [chain_filter_none_short rest (n0 + 1) (freshId n0) pid (sanitizeName p)
    (fun h => by rw [h, freshId_length] at hlen; omega)
    (hlen.trans (Nat.le_succ n0))]

theorem filter_eq_nil_of_all_false {l : List DriveFile} {pr : DriveFile → Bool}
    (h : ∀ f ∈ l, pr f = false) : l.filter pr = [] := by
  induction l with
  | nil => rfl
  | cons a l ih =>
      simp only [List.filter_cons, h a (by simp), Bool.false_eq_true, if_false]
      exact ih (fun f hf => h f (by simp [hf]))

theorem chain_parents_bound (parts : List Str) :
    ∀ (n0 : Nat) (pid0 : Str), ∀ f ∈ mkChainFiles n0 pid0 parts, ∀ q ∈ f.parents,
      q = pid0 ∨ (n0 < q.length ∧ q.length < n0 + parts.length) := by
  induction parts with
  | nil => intro n0 pid0 f hf; cases hf
  | cons p rest ih =>
      intro n0 pid0 f hf q hq
      simp only [mkChainFiles, List.mem_cons] at hf
      rcases hf with rfl | hf
      · simp only [List.mem_singleton] at hq
        exact Or.inl hq
      · rcases ih (n0 + 1) (freshId n0) f hf q hq with h | ⟨h1, h2⟩
        · refine Or.inr ⟨?_, ?_⟩
          · rw [h, freshId_length]
            omega
          · rw [h, freshId_length]
            have : rest ≠ [] := by
              rintro rfl
              cases hf
            have : 1 ≤ rest.length := by
              cases rest with
              | nil => exact absurd rfl this
              | cons a l => simp
            simp only [List.length_cons]
            omega
        · exact Or.inr ⟨by omega, by simpa [List.length_cons] using by omega⟩

theorem chain_filter_none_long (parts : List Str) :
    ∀ (n0 : Nat) (pid0 pid x : Str), pid0.length < pid.length →
      n0 + parts.length ≤ pid.length →
    (mkChainFiles n0 pid0 parts).filter (matchesB pid x) = [] := by
  intro n0 pid0 pid x hlt hle
  apply filter_eq_nil_of_all_false
  intro f hf
  apply matchesB_false_of_len
  intro q hq
  rcases chain_parents_bound parts n0 pid0 f hf q hq with h | ⟨-, h2⟩
  · rw [h]
    omega
  · omega

theorem cleanup_after_set (b : Bool) (pid p qf : Str) (v : List DriveFile) :
    (if b then Cache.set { items := [] } (cacheKey pid p qf) v
     else ({ items := [] } : Cache)).cleanupPrefixed (pid ++ ['-'])
      = { items := [] } := by
  cases b
  · rfl
  · simp [Cache.set, Cache.cleanupPrefixed, cacheKey, isPrefixOf_key]

theorem createFile_on (env : Env) (pid p mm : Str) :
    APIWrapper.createFile env pid p mm
      = ({ id := freshId env.store.nextId, name := sanitizeName p, mimeType := mm,
           parents := [pid], trashed := false },
         { store :=
             { files := env.store.files
                 ++ [{ id := freshId env.store.nextId, name := sanitizeName p,
                       mimeType := mm, parents := [pid], trashed := false }],
               nextId := env.store.nextId + 1 },
           cache := env.cache.cleanupPrefixed (pid ++ ['-']),
           useCache := env.useCache,
           log := env.log ++ [RemoteCall.createCall pid p mm] }) := by
  simp [APIWrapper.createFile, Remote.createEntry]

theorem chainParentId_succ (pid : Str) (n0 j : Nat) :
    chainParentId pid n0 (j + 1) = chainParentId (freshId n0) (n0 + 1) j := by
  cases j with
  | zero => simp [chainParentId]
  | succ k =>
      simp only [chainParentId]
      congr 1
      omega

theorem chainResult_isDir (parts : List Str) :
    ∀ (parent : FileInfo) (done : List Str) (n0 : Nat),
      parent.IsDir = true → (chainResult parent done n0 parts).IsDir = true := by
  induction parts with
  | nil => intro parent done n0 h; exact h
  | cons p rest ih =>
      intro parent done n0 _
      exact ih _ _ _ (by simp [FileInfo.IsDir])

theorem mkdir_run1 (parts : List Str) :
    ∀ (s : Remote) (b : Bool) (lg : List RemoteCall) (parent : FileInfo) (done : List Str),
    parent.IsDir = true →
    parent.file.id.length ≤ s.nextId →
    (∀ f ∈ s.files, ∀ q ∈ f.parents, q.length ≤ s.nextId) →
    (∀ p rest, parts = p :: rest → s.lookupChildren parent.file.id (sanitizeName p) = []) →
    ∃ lg',
      makeDirectoryByPartsGo
          { store := s, cache := { items := [] }, useCache := b, log := lg }
          parent done parts
        = (.ok (chainResult parent done s.nextId parts),
           { store := { files := s.files ++ mkChainFiles s.nextId parent.file.id parts,
                        nextId := s.nextId + parts.length },
             cache := { items := [] }, useCache := b, log := lg' }) := by
  induction parts with
  | nil =>
      intro s b lg parent done _ _ _ _
      exact ⟨lg, by simp [makeDirectoryByPartsGo, chainResult, mkChainFiles]⟩
  | cons p rest ih =>
      intro s b lg parent done hdir hplen hwf hlook
      have hq : (if listFieldsStr = [] then defaultQueryFields else listFieldsStr)
          = listFieldsStr := by decide
      have hw := wrapper_miss
        { store := s, cache := { items := [] }, useCache := b, log := lg }
        parent.file.id p listFieldsStr listFieldsStr hq rfl
      rw [mkGo_cons]
      simp only [hw, hlook p rest rfl, hdir, Bool.not_true, Bool.false_eq_true, if_false]
      rw [createFile_on]
      simp only []
      have hclean := cleanup_after_set b parent.file.id p listFieldsStr
        (Remote.lookupChildren s parent.file.id (sanitizeName p))
      rw [hlook p rest rfl] at hclean
      rw [hclean]
      have hrec := ih
        { files := s.files
            ++ [{ id := freshId s.nextId, name := sanitizeName p, mimeType := mimeTypeFolder,
                  parents := [parent.file.id], trashed := false }],
          nextId := s.nextId + 1 }
        b
        (lg ++ [RemoteCall.listCall parent.file.id p listFieldsStr]
            ++ [RemoteCall.createCall parent.file.id p mimeTypeFolder])
        { file := { id := freshId s.nextId, name := sanitizeName p,
                    mimeType := mimeTypeFolder, parents := [parent.file.id], trashed := false },
          parentPath := pathJoin done }
        (done ++ [p])
        (by simp [FileInfo.IsDir])
        (by simp [freshId_length])
        (by
          intro f hf q hq2
          simp only [List.mem_append, List.mem_singleton] at hf
          rcases hf with hf | rfl
          · exact (hwf f hf q hq2).trans (Nat.le_succ _)
          · simp only [List.mem_singleton] at hq2
            subst hq2
            exact hplen.trans (Nat.le_succ _))
        (by
          intro p2 rest2 hEq
          apply filter_eq_nil_of_all_false
          intro f hf
          apply matchesB_false_of_len
          intro q hq2
          simp only [List.mem_append, List.mem_singleton] at hf
          simp only [freshId_length, List.length_cons]
          rcases hf with hf | rfl
          · have := hwf f hf q hq2
            omega
          · simp only [List.mem_singleton] at hq2
            subst hq2
            omega)
      obtain ⟨lg', hrec⟩ := hrec
      refine ⟨lg', ?_⟩
      rw [hrec]
      simp [chainResult, mkChainFiles, List.append_assoc, Nat.add_assoc, Nat.add_comm,
        Nat.add_left_comm]

theorem mkdir_run2 (parts : List Str) :
    ∀ (base extra : List DriveFile) (N n0 : Nat) (parent : FileInfo) (done : List Str)
      (c : Cache) (b : Bool) (lg : List RemoteCall),
    parent.file.id.length ≤ n0 →
    (∀ f ∈ base, ∀ q ∈ f.parents, q.length ≤ n0) →
    (∀ p rest, parts = p :: rest → base.filter (matchesB parent.file.id (sanitizeName p)) = []) →
    (∀ f ∈ extra, ∀ q ∈ f.parents, n0 + parts.length ≤ q.length) →
    (∀ kv ∈ c.items, ∃ a t, kv.1 = a ++ '-' :: t ∧ a.length < parent.file.id.length) →
    (c.items = [] ∨ ∀ ch ∈ parent.file.id, ch ≠ '-') →
    ∃ c' lg',
      makeDirectoryByPartsGo
          { store := { files := base ++ mkChainFiles n0 parent.file.id parts ++ extra,
                       nextId := N },
            cache := c, useCache := b, log := lg } parent done parts
        = (.ok (chainResult parent done n0 parts),
           { store := { files := base ++ mkChainFiles n0 parent.file.id parts ++ extra,
                        nextId := N },
             cache := c', useCache := b, log := lg' }) := by
  induction parts with
  | nil =>
      intro base extra N n0 parent done c b lg _ _ _ _ _ _
      exact ⟨c, lg, by simp [makeDirectoryByPartsGo, chainResult]⟩
  | cons p rest ih =>
      intro base extra N n0 parent done c b lg hplen hbase hbase0 hextra hckeys hcdash
      have hq : (if listFieldsStr = [] then defaultQueryFields else listFieldsStr)
          = listFieldsStr := by decide
      -- the lookup misses the cache: every cached key differs from this segment's key
      have hmiss : c.get (cacheKey parent.file.id p listFieldsStr) = none := by
        rcases hcdash with hc | hdash
        · apply cacheGet_none_of_ne
          intro kv hkv
          rw [hc] at hkv
          cases hkv
        · apply cacheGet_none_of_ne
          intro kv hkv
          obtain ⟨a, t, hk, hlt⟩ := hckeys kv hkv
          rw [hk, cacheKey_shape]
          exact key_ne_short a t parent.file.id _ hlt hdash
      have hw := wrapper_miss
        { store := { files := base ++ mkChainFiles n0 parent.file.id (p :: rest) ++ extra,
                     nextId := N },
          cache := c, useCache := b, log := lg }
        parent.file.id p listFieldsStr listFieldsStr hq hmiss
      -- the lookup returns exactly the chain's entry for this level
      have hres : Remote.lookupChildren
          { files := base ++ mkChainFiles n0 parent.file.id (p :: rest) ++ extra, nextId := N }
          parent.file.id (sanitizeName p)
          = [{ id := freshId n0, name := sanitizeName p, mimeType := mimeTypeFolder,
               parents := [parent.file.id], trashed := false }] := by
        unfold Remote.lookupChildren
        simp only []
        rw [List.filter_append, List.filter_append]
        rw [hbase0 p rest rfl, chain_filter_head n0 parent.file.id p rest hplen]
        rw [filter_eq_nil_of_all_false (fun f hf => matchesB_false_of_len _ _ _ (by
          intro q hq2
          have := hextra f hf q hq2
          simp only [List.length_cons] at this
          omega))]
        simp
      rw [mkGo_cons]
      simp only [hw, hres]
      have hrec := ih
        (base ++ [{ id := freshId n0, name := sanitizeName p, mimeType := mimeTypeFolder,
                    parents := [parent.file.id], trashed := false }])
        extra N (n0 + 1)
        { file := { id := freshId n0, name := sanitizeName p, mimeType := mimeTypeFolder,
                    parents := [parent.file.id], trashed := false },
          parentPath := pathJoin done }
        (done ++ [p])
        (if b then c.set (cacheKey parent.file.id p listFieldsStr)
            [{ id := freshId n0, name := sanitizeName p, mimeType := mimeTypeFolder,
               parents := [parent.file.id], trashed := false }]
         else c)
        b
        (lg ++ [RemoteCall.listCall parent.file.id p listFieldsStr])
        (by simp [freshId_length])
        (by
          intro f hf q hq2
          simp only [List.mem_append, List.mem_singleton] at hf
          rcases hf with hf | rfl
          · exact (hbase f hf q hq2).trans (Nat.le_succ _)
          · simp only [List.mem_singleton] at hq2
            subst hq2
            exact hplen.trans (Nat.le_succ _))
        (by
          intro p2 rest2 hEq
          apply filter_eq_nil_of_all_false
          intro f hf
          apply matchesB_false_of_len
          intro q hq2
          simp only [List.mem_append, List.mem_singleton] at hf
          simp only [freshId_length]
          rcases hf with hf | rfl
          · have := hbase f hf q hq2
            omega
          · simp only [List.mem_singleton] at hq2
            subst hq2
            omega)
        (by
          intro f hf q hq2
          have := hextra f hf q hq2
          simp only [List.length_cons] at this
          omega)
        (by
          intro kv hkv
          cases b with
          | false =>
              rw [if_neg (by decide)] at hkv
              obtain ⟨a, t, hk, hlt⟩ := hckeys kv hkv
              exact ⟨a, t, hk, by simp only [freshId_length]; omega⟩
          | true =>
              rw [if_pos rfl] at hkv
              simp only [Cache.set, List.mem_cons] at hkv
              rcases hkv with rfl | hkv
              · refine ⟨parent.file.id,
                  "getFileByFolderAndName-".toList ++ p ++ '-' :: listFieldsStr,
                  cacheKey_shape _ _ _, ?_⟩
                simp only [freshId_length]
                omega
              · obtain ⟨a, t, hk, hlt⟩ := hckeys kv (List.mem_of_mem_filter hkv)
                exact ⟨a, t, hk, by simp only [freshId_length]; omega⟩)
        (Or.inr (by
          intro ch hch
          exact freshId_dashfree n0 ch hch))
      obtain ⟨c', lg', hrec⟩ := hrec
      refine ⟨c', lg', ?_⟩
      have hstore :
          (base ++
              [({ id := freshId n0, name := sanitizeName p, mimeType := mimeTypeFolder,
                  parents := [parent.file.id], trashed := false } : DriveFile)])
            ++ mkChainFiles (n0 + 1)
                (({ file :=
                      { id := freshId n0, name := sanitizeName p, mimeType := mimeTypeFolder,
                        parents := [parent.file.id], trashed := false },
                    parentPath := pathJoin done } : FileInfo)).file.id rest ++ extra
          = base ++ mkChainFiles n0 parent.file.id (p :: rest) ++ extra := by
        simp [mkChainFiles, List.append_assoc]
      rw [hstore] at hrec
      rw [hrec]
      simp [chainResult]

theorem chain_levels (parts : List Str) :
    ∀ (base extra : List DriveFile) (N n0 : Nat) (pid : Str) (i : Nat) (hi : i < parts.length),
    pid.length ≤ n0 →
    (∀ f ∈ base, ∀ q ∈ f.parents, q.length ≤ n0) →
    (∀ p rest, parts = p :: rest → base.filter (matchesB pid (sanitizeName p)) = []) →
    (∀ f ∈ extra, ∀ q ∈ f.parents, n0 + parts.length ≤ q.length) →
    Remote.lookupChildren
        { files := base ++ mkChainFiles n0 pid parts ++ extra, nextId := N }
        (chainParentId pid n0 i) (sanitizeName (parts.get ⟨i, hi⟩))
      = [{ id := freshId (n0 + i), name := sanitizeName (parts.get ⟨i, hi⟩),
           mimeType := mimeTypeFolder, parents := [chainParentId pid n0 i],
           trashed := false }] := by
  induction parts with
  | nil =>
      intro base extra N n0 pid i hi
      exact absurd hi (by simp)
  | cons p rest ih =>
      intro base extra N n0 pid i hi h1 h2 h3 h4
      cases i with
      | zero =>
          have hget : (p :: rest).get ⟨0, hi⟩ = p := rfl
          simp only [chainParentId, hget, Nat.add_zero]
          unfold Remote.lookupChildren
          simp only []
          rw [List.filter_append, List.filter_append]
          rw [h3 p rest rfl, chain_filter_head n0 pid p rest h1]
          rw [filter_eq_nil_of_all_false (fun f hf => matchesB_false_of_len _ _ _ (by
            intro q hq2
            have := h4 f hf q hq2
            simp only [List.length_cons] at this
            omega))]
          simp
      | succ j =>
          have hj : j < rest.length := by simpa using hi
          have hget : (p :: rest).get ⟨j + 1, hi⟩ = rest.get ⟨j, hj⟩ := rfl
          rw [chainParentId_succ, hget]
          have hstore :
              base ++ mkChainFiles n0 pid (p :: rest) ++ extra
                = (base ++
                    [({ id := freshId n0, name := sanitizeName p,
                        mimeType := mimeTypeFolder, parents := [pid],
                        trashed := false } : DriveFile)])
                  ++ mkChainFiles (n0 + 1) (freshId n0) rest ++ extra := by
            simp [mkChainFiles, List.append_assoc]
          rw [hstore]
          have hrec := ih
            (base ++
              [({ id := freshId n0, name := sanitizeName p, mimeType := mimeTypeFolder,
                  parents := [pid], trashed := false } : DriveFile)])
            extra N (n0 + 1) (freshId n0) j hj
            (by simp [freshId_length])
            (by
              intro f hf q hq2
              simp only [List.mem_append, List.mem_singleton] at hf
              rcases hf with hf | rfl
              · exact (h2 f hf q hq2).trans (Nat.le_succ _)
              · simp only [List.mem_singleton] at hq2
                subst hq2
                exact h1.trans (Nat.le_succ _))
            (by
              intro p2 rest2 hEq
              apply filter_eq_nil_of_all_false
              intro f hf
              apply matchesB_false_of_len
              intro q hq2
              simp only [List.mem_append, List.mem_singleton] at hf
              simp only [freshId_length]
              rcases hf with hf | rfl
              · have := h2 f hf q hq2
                omega
              · simp only [List.mem_singleton] at hq2
                subst hq2
                omega)
            (by
              intro f hf q hq2
              have := h4 f hf q hq2
              simp only [List.length_cons] at this
              omega)
          have harith : n0 + 1 + j = n0 + (j + 1) := by omega
          rw [harith] at hrec
          exact hrec

/-- Claim C4: for every path P whose first segment names no existing child of
the root (so the walk creates every level), MkdirAll(P) on a well-formed store
with a fresh cache succeeds and creates exactly one folder entry per segment
of P; the resolved node of the walk is a directory; at every segment level
the store then holds exactly one matching non-trashed child, a folder; and a
second MkdirAll(P) succeeds again leaving the store (files and identifier
counter) completely unchanged -- no duplicate entry for any segment.  In
addition, at each segment the walk descends into a single existing match,
creates a directory on zero matches, fails with the not-a-directory error
when the current parent is a file and the segment must be created, and fails
with the multiple-entries error when the segment is ambiguous. -/
theorem C4_mkdirAll_idempotent (d : GDriver) (s0 : Remote) (b : Bool) (path : Str)
    (hroot : d.rootNode.IsDir = true)
    (hrlen : d.rootNode.file.id.length ≤ s0.nextId)
    (hwf : ∀ f ∈ s0.files, ∀ q ∈ f.parents, q.length ≤ s0.nextId)
    (hfresh : ∀ p rest, splitPath path = p :: rest →
        s0.lookupChildren d.rootNode.file.id (sanitizeName p) = []) :
    ∃ fi lg1 c2 lg2,
      makeDirectoryByParts d
          { store := s0, cache := { items := [] }, useCache := b, log := [] }
          (splitPath path)
        = (.ok fi,
           { store :=
               { files :=
                   s0.files ++ mkChainFiles s0.nextId d.rootNode.file.id (splitPath path),
                 nextId := s0.nextId + (splitPath path).length },
             cache := { items := [] }, useCache := b, log := lg1 })
      ∧ fi.IsDir = true
      ∧ MkdirAll d { store := s0, cache := { items := [] }, useCache := b, log := [] } path
          = (none,
             { store :=
                 { files :=
                     s0.files ++ mkChainFiles s0.nextId d.rootNode.file.id (splitPath path),
                   nextId := s0.nextId + (splitPath path).length },
               cache := { items := [] }, useCache := b, log := lg1 })
      ∧ MkdirAll d
            { store :=
                { files :=
                    s0.files ++ mkChainFiles s0.nextId d.rootNode.file.id (splitPath path),
                  nextId := s0.nextId + (splitPath path).length },
              cache := { items := [] }, useCache := b, log := lg1 } path
          = (none,
             { store :=
                 { files :=
                     s0.files ++ mkChainFiles s0.nextId d.rootNode.file.id (splitPath path),
                   nextId := s0.nextId + (splitPath path).length },
               cache := c2, useCache := b, log := lg2 })
      ∧ (∀ i, ∀ hi : i < (splitPath path).length,
          Remote.lookupChildren
              { files :=
                  s0.files ++ mkChainFiles s0.nextId d.rootNode.file.id (splitPath path),
                nextId := s0.nextId + (splitPath path).length }
              (chainParentId d.rootNode.file.id s0.nextId i)
              (sanitizeName ((splitPath path).get ⟨i, hi⟩))
            = [{ id := freshId (s0.nextId + i),
                 name := sanitizeName ((splitPath path).get ⟨i, hi⟩),
                 mimeType := mimeTypeFolder,
                 parents := [chainParentId d.rootNode.file.id s0.nextId i],
                 trashed := false }])
      ∧ (∀ (env : Env) (parent : FileInfo) (dn : List Str) (p : Str) (rest : List Str),
          ((APIWrapper.getFileByFolderAndName env parent.file.id p listFieldsStr).1 = [] →
             parent.IsDir = false →
             makeDirectoryByPartsGo env parent dn (p :: rest)
               = (.error (.fileIsNotDirectory (pathJoin dn)),
                  (APIWrapper.getFileByFolderAndName env parent.file.id p listFieldsStr).2))
          ∧ (1 < (APIWrapper.getFileByFolderAndName env parent.file.id p
                listFieldsStr).1.length →
             makeDirectoryByPartsGo env parent dn (p :: rest)
               = (.error (.fileHasMultipleEntries (pathJoin (dn ++ [p]))),
                  (APIWrapper.getFileByFolderAndName env parent.file.id p listFieldsStr).2))
          ∧ (∀ g, (APIWrapper.getFileByFolderAndName env parent.file.id p
                listFieldsStr).1 = [g] →
             makeDirectoryByPartsGo env parent dn (p :: rest)
               = makeDirectoryByPartsGo
                   (APIWrapper.getFileByFolderAndName env parent.file.id p listFieldsStr).2
                   { file := g, parentPath := pathJoin dn } (dn ++ [p]) rest)) := by
  obtain ⟨lg1, hrun1⟩ := mkdir_run1 (splitPath path) s0 b [] d.rootNode []
    hroot hrlen hwf hfresh
  obtain ⟨c2, lg2, hrun2⟩ := mkdir_run2 (splitPath path) s0.files []
    (s0.nextId + (splitPath path).length) s0.nextId d.rootNode [] { items := [] } b lg1
    hrlen hwf
    (fun p rest h => hfresh p rest h)
    (by intro f hf; cases hf)
    (by intro kv hkv; cases hkv)
    (Or.inl rfl)
  refine ⟨chainResult d.rootNode [] s0.nextId (splitPath path), lg1, c2, lg2,
    ?_, chainResult_isDir _ _ _ _ hroot, ?_, ?_, ?_, ?_⟩
  · exact hrun1
  · unfold MkdirAll
    unfold makeDirectoryByParts
    rw [hrun1]
  · unfold MkdirAll
    unfold makeDirectoryByParts
    rw [show s0.files ++ mkChainFiles s0.nextId d.rootNode.file.id (splitPath path)
        = s0.files ++ mkChainFiles s0.nextId d.rootNode.file.id (splitPath path) ++ [] by simp]
    rw [hrun2]
  · intro i hi
    have := chain_levels (splitPath path) s0.files []
      (s0.nextId + (splitPath path).length) s0.nextId d.rootNode.file.id i hi
      hrlen hwf (fun p rest h => hfresh p rest h) (by intro f hf; cases hf)
    simpa using this
  · intro env parent dn p rest
    refine ⟨?_, ?_, ?_⟩
    · intro h0 hnd
      rw [mkGo_cons]
      simp only []
      rw [h0, hnd]
      simp
    · intro hlen2
      rw [mkGo_cons]
      simp only []
      rcases hE : (APIWrapper.getFileByFolderAndName env parent.file.id p
          listFieldsStr).1 with - | ⟨a, - | ⟨a2, l⟩⟩
      · rw [hE] at hlen2
        simp at hlen2
      · rw [hE] at hlen2
        simp at hlen2
      · rfl
    · intro g hg
      rw [mkGo_cons]
      simp only []
      rw [hg]

/-- Witness for C4: creating a/b twice in an empty store under the concrete
root -- both calls succeed and the second leaves the store unchanged. -/
theorem C4_witness :
    ∃ (fi : FileInfo) (lg1 : List RemoteCall) (c2 : Cache) (lg2 : List RemoteCall),
      MkdirAll d0
          { store := { files := [], nextId := 1 }, cache := { items := [] },
            useCache := true, log := [] } "a/b".toList
        = (none,
           { store :=
               { files :=
                   [] ++ mkChainFiles 1 d0.rootNode.file.id (splitPath "a/b".toList),
                 nextId := 1 + (splitPath "a/b".toList).length },
             cache := { items := [] }, useCache := true, log := lg1 })
      ∧ fi.IsDir = true
      ∧ MkdirAll d0
            { store :=
                { files :=
                    [] ++ mkChainFiles 1 d0.rootNode.file.id (splitPath "a/b".toList),
                  nextId := 1 + (splitPath "a/b".toList).length },
              cache := { items := [] }, useCache := true, log := lg1 } "a/b".toList
          = (none,
             { store :=
                 { files :=
                     [] ++ mkChainFiles 1 d0.rootNode.file.id (splitPath "a/b".toList),
                   nextId := 1 + (splitPath "a/b".toList).length },
               cache := c2, useCache := true, log := lg2 }) := by
  obtain ⟨fi, lg1, c2, lg2, h1, h2, h3, h4, h5, h6⟩ :=
    C4_mkdirAll_idempotent d0 { files := [], nextId := 1 } true "a/b".toList
      (by decide) (by decide) (by simp) (fun p rest h => rfl)
  exact ⟨fi, lg1, c2, lg2, h3, h2, h4⟩

end Gdrive
